import Mathlib

/-!
Verification of the deskinfopoint concurrent coordination core.

Shallow embedding of `src/deskinfopoint`: the shared state bus (`state.py`),
the alert evaluator (`alerts.py`), the button debouncer
(`hardware/buttons.py`), the render scheduler (`hardware/display.py`) and
the LED animator (`hardware/led.py`).  Python floats are modelled as
rationals, Python ints as `Int`/`Nat`, dictionaries as association lists.
Every mutating method of the bus runs under one coarse lock, so the
sequential functional model below is the exact per-call semantics.
-/

namespace DeskInfoPoint

/-- A Python value stored in the bus's MQTT map or used as an alert
threshold: per the configuration loader these are floats or strings. -/
inductive Value where
  | num (q : ℚ)
  | str (s : String)
deriving DecidableEq

/-- Embedding of the `SensorReading` dataclass in `state.py`: three optional
floats plus a monotonic timestamp. -/
structure SensorReading where
  co2 : Option ℚ
  temperature : Option ℚ
  humidity : Option ℚ
  timestamp : ℚ
deriving DecidableEq

/-- Default-constructed `SensorReading()` (all fields `None`, timestamp 0). -/
def SensorReading.default : SensorReading := ⟨none, none, none, 0⟩

/-- Association-list update modelling `d[k] = v` on a Python dict. -/
def dictInsert (l : List (String × Value)) (k : String) (v : Value) :
    List (String × Value) :=
  match l with
  | [] => [(k, v)]
  | (k', v') :: rest =>
      if k' = k then (k', v) :: rest else (k', v') :: dictInsert rest k v

/-- Association-list lookup modelling `d.get(k)` on a Python dict. -/
def dictGet (l : List (String × Value)) (k : String) : Option Value :=
  match l with
  | [] => none
  | (k', v') :: rest => if k' = k then some v' else dictGet rest k

/-- Python's two-argument `max`: the first argument wins a tie. -/
def pyMax (a b : ℚ) : ℚ := if b ≤ a then a else b

/-- Python's two-argument `min`: the first argument wins a tie. -/
def pyMin (a b : ℚ) : ℚ := if a ≤ b then a else b

/-- Embedding of `SharedState` in `state.py`.  The lock is not modelled:
every method is a single critical section, so each method is one atomic
step on this record. -/
structure SharedState where
  sensor : SensorReading
  mqtt : List (String × Value)
  current_screen : Int
  screen_count : Int
  brightness : ℚ
  version : Nat
deriving DecidableEq

/-- `SharedState.__init__(screen_count, initial_brightness)`. -/
def SharedState.init (screen_count : Int) (initial_brightness : ℚ) :
    SharedState :=
  { sensor := SensorReading.default
    mqtt := []
    current_screen := 0
    screen_count := screen_count
    brightness := pyMax (5/100) (pyMin 1 initial_brightness)
    version := 0 }

/-- `next_screen`: `(index + 1) % screen_count` (Python `%` agrees with
`Int.emod` for a positive modulus) and bump the version. -/
def next_screen (s : SharedState) : SharedState :=
  { s with current_screen := (s.current_screen + 1).emod s.screen_count
           version := s.version + 1 }

/-- `prev_screen`: `(index - 1) % screen_count` and bump the version. -/
def prev_screen (s : SharedState) : SharedState :=
  { s with current_screen := (s.current_screen - 1).emod s.screen_count
           version := s.version + 1 }

/-- `update_sensor`: replace the whole reading wholesale (the caller's
`time.monotonic()` is passed in as `now`) and bump the version. -/
def update_sensor (s : SharedState) (co2 temperature humidity now : ℚ) :
    SharedState :=
  { s with sensor := ⟨some co2, some temperature, some humidity, now⟩
           version := s.version + 1 }

/-- Round-half-to-even on rationals, the semantics of Python's `round`
applied to an exact value. -/
def roundHalfEven (q : ℚ) : Int :=
  let f := ⌊q⌋
  let r := q - f
  if r < 1/2 then f
  else if 1/2 < r then f + 1
  else if f % 2 = 0 then f else f + 1

/-- Python `round(value, 2)`. -/
def pyRound2 (q : ℚ) : ℚ := (roundHalfEven (q * 100) : ℚ) / 100

/-- `set_brightness`: `max(0.05, min(1.0, round(value, 2)))`, bump version. -/
def set_brightness (s : SharedState) (value : ℚ) : SharedState :=
  { s with brightness := pyMax (5/100) (pyMin 1 (pyRound2 value))
           version := s.version + 1 }

/-- `update_mqtt`: `self._mqtt[sub_id] = value`, bump version. -/
def update_mqtt (s : SharedState) (sub_id : String) (value : Value) :
    SharedState :=
  { s with mqtt := dictInsert s.mqtt sub_id value
           version := s.version + 1 }

/-- One mutating call on the bus. -/
inductive Mut where
  | nextScreen
  | prevScreen
  | updateSensor (co2 temperature humidity now : ℚ)
  | setBrightness (v : ℚ)
  | updateMqtt (k : String) (v : Value)

/-- Apply one mutating call. -/
def applyMut (s : SharedState) : Mut → SharedState
  | .nextScreen => next_screen s
  | .prevScreen => prev_screen s
  | .updateSensor c t h now => update_sensor s c t h now
  | .setBrightness v => set_brightness s v
  | .updateMqtt k v => update_mqtt s k v

/-- Apply a sequence of mutating calls, left to right. -/
def applyMuts (s : SharedState) (l : List Mut) : SharedState :=
  l.foldl applyMut s

lemma applyMut_version (s : SharedState) (m : Mut) :
    (applyMut s m).version = s.version + 1 := by
  cases m <;> rfl

lemma applyMuts_version (l : List Mut) (s : SharedState) :
    (applyMuts s l).version = s.version + l.length := by
  induction l generalizing s with
  | nil => rfl
  | cons m t ih =>
      simp only [applyMuts, List.foldl_cons, List.length_cons]
      rw [show List.foldl applyMut (applyMut s m) t = applyMuts (applyMut s m) t from rfl]
      rw [ih, applyMut_version]
      omega

/-- C1: every successful mutating call on the bus (`next_screen`,
`prev_screen`, `update_sensor`, `set_brightness`, `update_mqtt`) increases
`get_version()` by exactly 1, and a sequence of `n` mutating calls
increases it by exactly `n` — the version is strictly increasing, never
reset, never skipped, and unchanged between mutations. -/
theorem version_strictly_increasing (s : SharedState)
    (h : 0 < s.screen_count) (m : Mut) (l : List Mut) :
    (applyMut s m).version = s.version + 1 ∧
    (applyMuts s l).version = s.version + l.length ∧
    (l ≠ [] → s.version < (applyMuts s l).version) := by
  refine ⟨applyMut_version s m, applyMuts_version l s, fun hne => ?_⟩
  rw [applyMuts_version]
  have : l.length ≠ 0 := fun h0 => hne (List.length_eq_zero.mp h0)
  omega

/-- Witness for C1 at a concrete bus state and call sequence. -/
theorem version_strictly_increasing_witness :
    0 < (SharedState.init 3 1).screen_count ∧
    (applyMut (SharedState.init 3 1) Mut.nextScreen).version =
      (SharedState.init 3 1).version + 1 := by
  refine ⟨by decide, ?_⟩
  exact (version_strictly_increasing (SharedState.init 3 1) (by decide)
    Mut.nextScreen []).1

/-- A screen-navigation call. -/
inductive Nav where
  | next
  | prev

/-- Apply one navigation call. -/
def applyNav (s : SharedState) : Nav → SharedState
  | .next => next_screen s
  | .prev => prev_screen s

/-- Apply a sequence of navigation calls, left to right. -/
def applyNavs (s : SharedState) (l : List Nav) : SharedState :=
  l.foldl applyNav s

lemma applyNav_screen_count (s : SharedState) (n : Nav) :
    (applyNav s n).screen_count = s.screen_count := by
  cases n <;> rfl

lemma applyNav_in_range (s : SharedState) (h : 0 < s.screen_count) (n : Nav) :
    0 ≤ (applyNav s n).current_screen ∧
    (applyNav s n).current_screen < s.screen_count := by
  cases n <;>
    exact ⟨Int.emod_nonneg _ (by omega), Int.emod_lt_of_pos _ h⟩

lemma applyNavs_in_range (l : List Nav) (s : SharedState)
    (h : 0 < s.screen_count) (h0 : 0 ≤ s.current_screen)
    (h1 : s.current_screen < s.screen_count) :
    0 ≤ (applyNavs s l).current_screen ∧
    (applyNavs s l).current_screen < s.screen_count := by
  induction l generalizing s with
  | nil => exact ⟨h0, h1⟩
  | cons n t ih =>
      have hrange := applyNav_in_range s h n
      have hsc := applyNav_screen_count s n
      have := ih (applyNav s n) (hsc ▸ h) hrange.1 (hsc ▸ hrange.2)
      simpa [applyNavs, hsc] using this

/-- C2: for `screen_count > 0`, any sequence of `next_screen`/`prev_screen`
calls starting from a valid index keeps the current screen in
`[0, screen_count)`, and each call moves the index to `(index ± 1) mod
screen_count`. -/
theorem screen_index_in_range (s : SharedState)
    (h : 0 < s.screen_count) (h0 : 0 ≤ s.current_screen)
    (h1 : s.current_screen < s.screen_count) (l : List Nav) :
    (0 ≤ (applyNavs s l).current_screen ∧
      (applyNavs s l).current_screen < s.screen_count) ∧
    (next_screen s).current_screen =
      (s.current_screen + 1).emod s.screen_count ∧
    (prev_screen s).current_screen =
      (s.current_screen - 1).emod s.screen_count := by
  exact ⟨applyNavs_in_range l s h h0 h1, rfl, rfl⟩

/-- Witness for C2 at a concrete bus state and call sequence. -/
theorem screen_index_in_range_witness :
    (0 < (SharedState.init 3 1).screen_count ∧
      0 ≤ (SharedState.init 3 1).current_screen ∧
      (SharedState.init 3 1).current_screen <
        (SharedState.init 3 1).screen_count) ∧
    (0 ≤ (applyNavs (SharedState.init 3 1) [Nav.prev]).current_screen ∧
      (applyNavs (SharedState.init 3 1) [Nav.prev]).current_screen <
        (SharedState.init 3 1).screen_count) := by
  refine ⟨⟨by decide, by decide, by decide⟩, ?_⟩
  exact (screen_index_in_range (SharedState.init 3 1) (by decide) (by decide)
    (by decide) [Nav.prev]).1

/-- C7: `set_brightness(v)` stores `round(v, 2)` clamped to `[0.05, 1.0]`:
`set_brightness(-1)` stores 0.05, `set_brightness(5)` stores 1.0,
`set_brightness(0.333)` stores 0.33, and the stored brightness is always
within `[0.05, 1.0]` after any call. -/
theorem brightness_clamped (s : SharedState) (v : ℚ) :
    (set_brightness s (-1)).brightness = 5/100 ∧
    (set_brightness s 5).brightness = 1 ∧
    (set_brightness s (333/1000)).brightness = 33/100 ∧
    5/100 ≤ (set_brightness s v).brightness ∧
    (set_brightness s v).brightness ≤ 1 := by
  refine ⟨?_, ?_, ?_, ?_, ?_⟩
  · show pyMax (5/100) (pyMin 1 (pyRound2 (-1))) = 5/100
    norm_num [pyMax, pyMin, pyRound2, roundHalfEven]
  · show pyMax (5/100) (pyMin 1 (pyRound2 5)) = 1
    norm_num [pyMax, pyMin, pyRound2, roundHalfEven]
  · show pyMax (5/100) (pyMin 1 (pyRound2 (333/1000))) = 33/100
    norm_num [pyMax, pyMin, pyRound2, roundHalfEven]
  · show (5:ℚ)/100 ≤ pyMax (5/100) (pyMin 1 (pyRound2 v))
    unfold pyMax pyMin
    split_ifs <;> linarith
  · show pyMax (5/100) (pyMin 1 (pyRound2 v)) ≤ 1
    unfold pyMax pyMin
    split_ifs <;> linarith

/-! ## Alert evaluator (`alerts.py`) -/

/-- A comparator from the `_OPS` table in `alerts.py`. -/
inductive Cmp where
  | ge
  | le
  | ne
  | gt
  | lt
  | eq
deriving DecidableEq

/-- `_OPS.get(op_str)`: map a comparator string to its operator, `none` for
an unknown string. -/
def OPS_get (op_str : String) : Option Cmp :=
  if op_str = ">=" then some .ge
  else if op_str = "<=" then some .le
  else if op_str = "!=" then some .ne
  else if op_str = ">" then some .gt
  else if op_str = "<" then some .lt
  else if op_str = "==" then some .eq
  else none

/-- Python comparison of two values (floats or strings).  `none` models a
`TypeError`: ordering comparisons across mixed types raise, while `==` and
`!=` across mixed types return `False` and `True` respectively. -/
def pyCompare (c : Cmp) (v w : Value) : Option Bool :=
  match v, w with
  | .num a, .num b =>
      some (match c with
            | .ge => decide (b ≤ a)
            | .le => decide (a ≤ b)
            | .ne => decide (a ≠ b)
            | .gt => decide (b < a)
            | .lt => decide (a < b)
            | .eq => decide (a = b))
  | .str a, .str b =>
      some (match c with
            | .ge => decide (¬ a < b)
            | .le => decide (¬ b < a)
            | .ne => decide (a ≠ b)
            | .gt => decide (b < a)
            | .lt => decide (a < b)
            | .eq => decide (a = b))
  | _, _ =>
      match c with
      | .eq => some false
      | .ne => some true
      | _ => none

/-- `AlertEvaluator._eval(value, op_str, threshold)`: unknown comparator
strings yield `False`; a `TypeError` from the comparison is caught and
yields `False`. -/
def evalCond (value : Value) (op_str : String) (threshold : Value) : Bool :=
  match OPS_get op_str with
  | none => false
  | some c => (pyCompare c value threshold).getD false

/-- Split a character list at the first `'.'`; like Python `partition`,
everything before the first dot and everything after it (the whole string
and `""` when there is no dot). -/
def breakAtDot : List Char → List Char × List Char
  | [] => ([], [])
  | c :: rest =>
      if c = '.' then ([], rest)
      else
        let p := breakAtDot rest
        (c :: p.1, p.2)

/-- `source.partition(".")`, keeping the part before and after the first
dot. -/
def pyPartitionDot (s : String) : String × String :=
  let p := breakAtDot s.data
  (⟨p.1⟩, ⟨p.2⟩)

/-- `getattr(sensor, field, None)` on the `SensorReading` dataclass. -/
def pyGetattrSensor (sensor : SensorReading) (field : String) : Option Value :=
  if field = "co2" then sensor.co2.map .num
  else if field = "temperature" then sensor.temperature.map .num
  else if field = "humidity" then sensor.humidity.map .num
  else if field = "timestamp" then some (.num sensor.timestamp)
  else none

/-- `AlertEvaluator._resolve(source, sensor, mqtt_vals)`. -/
def resolveSource (source : String) (sensor : SensorReading)
    (mqtt_vals : List (String × Value)) : Option Value :=
  let p := pyPartitionDot source
  if p.1 = "sensor" then pyGetattrSensor sensor p.2
  else if p.1 = "mqtt" then dictGet mqtt_vals p.2
  else none

/-- Embedding of the `AlertConfig` dataclass in `config.py`. -/
structure AlertConfig where
  source : String
  op : String
  threshold : Value
  color : ℚ × ℚ × ℚ
  mode : String
  blink_hz : ℚ
  pulse_hz : ℚ
  priority : Int
deriving DecidableEq

/-- The loop-body test in `active_alert`: the resolved value is not `None`
and `_eval` accepts it. -/
def ruleMatches (sensor : SensorReading) (mqtt_vals : List (String × Value))
    (a : AlertConfig) : Bool :=
  match resolveSource a.source sensor mqtt_vals with
  | none => false
  | some v => evalCond v a.op a.threshold

/-- The sort key relation of `sorted(alerts, key=λa: a.priority,
reverse=True)`: descending priority. -/
def prioGe (x y : AlertConfig) : Prop := y.priority ≤ x.priority

instance : DecidableRel prioGe :=
  fun x y => inferInstanceAs (Decidable (y.priority ≤ x.priority))

instance : IsTotal AlertConfig prioGe :=
  ⟨fun a b => le_total b.priority a.priority⟩

instance : IsTrans AlertConfig prioGe :=
  ⟨fun _ _ _ h1 h2 => le_trans h2 h1⟩

/-- The constructor's `sorted(alerts, key=λa: a.priority, reverse=True)`:
Python's sort is stable, so ties keep declaration order, which is exactly
what stable insertion sort produces. -/
def sortAlerts (alerts : List AlertConfig) : List AlertConfig :=
  List.insertionSort prioGe alerts

/-- `AlertEvaluator.active_alert()`: linear scan of the sorted rules,
first match wins; the bus snapshot is taken once before the scan. -/
def active_alert (alerts : List AlertConfig) (sensor : SensorReading)
    (mqtt_vals : List (String × Value)) : Option AlertConfig :=
  (sortAlerts alerts).find? (ruleMatches sensor mqtt_vals)

/-- Modelled from the spec's words, for comparison with `active_alert`:
the matching rule of highest priority, the earlier-declared rule winning a
priority tie, `none` when no rule matches. -/
def specBestAlert (p : AlertConfig → Bool) : List AlertConfig → Option AlertConfig
  | [] => none
  | a :: l =>
      match specBestAlert p l with
      | none => if p a then some a else none
      | some b => if p a then (if a.priority < b.priority then some b else some a)
                  else some b

lemma find?_orderedInsert (p : AlertConfig → Bool) (a : AlertConfig)
    (s : List AlertConfig) (hs : List.Sorted prioGe s) :
    (List.orderedInsert prioGe a s).find? p =
      if p a then
        (match s.find? p with
         | none => some a
         | some b => if a.priority < b.priority then some b else some a)
      else s.find? p := by
  induction s with
  | nil =>
      by_cases hpa : p a = true
      · rw [List.orderedInsert, List.find?_cons_of_pos _ hpa, if_pos hpa]
        rfl
      · rw [List.orderedInsert, List.find?_cons_of_neg _ hpa, if_neg hpa]
  | cons x t ih =>
      obtain ⟨hx, ht⟩ := List.sorted_cons.mp hs
      rw [List.orderedInsert]
      by_cases hax : prioGe a x
      · rw [if_pos hax]
        by_cases hpa : p a = true
        · rw [List.find?_cons_of_pos _ hpa, if_pos hpa]
          cases hfx : (x :: t).find? p with
          | none => rfl
          | some b =>
              have hb : b ∈ x :: t := List.mem_of_find?_eq_some hfx
              have hble : b.priority ≤ x.priority := by
                rcases List.mem_cons.mp hb with h | h
                · exact h ▸ le_refl _
                · exact hx b h
              have hnlt : ¬ a.priority < b.priority := by
                have : b.priority ≤ a.priority := le_trans hble hax
                omega
              show some a = if a.priority < b.priority then some b else some a
              rw [if_neg hnlt]
        · rw [List.find?_cons_of_neg _ hpa, if_neg hpa]
      · rw [if_neg hax]
        have hax' : a.priority < x.priority := by
          simp only [prioGe, not_le] at hax
          exact hax
        by_cases hpx : p x = true
        · rw [List.find?_cons_of_pos _ hpx, List.find?_cons_of_pos _ hpx]
          by_cases hpa : p a = true
          · rw [if_pos hpa]
            show some x = if a.priority < x.priority then some x else some a
            rw [if_pos hax']
          · rw [if_neg hpa]
        · rw [List.find?_cons_of_neg _ hpx, List.find?_cons_of_neg _ hpx,
              ih ht]

lemma find?_sortAlerts (p : AlertConfig → Bool) (l : List AlertConfig) :
    (sortAlerts l).find? p = specBestAlert p l := by
  induction l with
  | nil => rfl
  | cons a t ih =>
      have hs : List.Sorted prioGe (sortAlerts t) :=
        List.sorted_insertionSort prioGe t
      show (List.orderedInsert prioGe a (sortAlerts t)).find? p = _
      rw [find?_orderedInsert p a _ hs, ih]
      simp only [specBestAlert]
      cases hsp : specBestAlert p t <;> cases hpa : p a <;> simp

lemma specBestAlert_matches (p : AlertConfig → Bool) (l : List AlertConfig)
    (b : AlertConfig) (h : specBestAlert p l = some b) : p b = true := by
  induction l generalizing b with
  | nil => cases h
  | cons a t ih =>
      cases hsp : specBestAlert p t with
      | none =>
          simp only [specBestAlert, hsp] at h
          by_cases hpa : p a = true
          · rw [if_pos hpa] at h; cases h; exact hpa
          · rw [if_neg hpa] at h; cases h
      | some c =>
          simp only [specBestAlert, hsp] at h
          by_cases hpa : p a = true
          · rw [if_pos hpa] at h
            by_cases hlt : a.priority < c.priority
            · rw [if_pos hlt] at h; cases h; exact ih _ hsp
            · rw [if_neg hlt] at h; cases h; exact hpa
          · rw [if_neg hpa] at h; cases h; exact ih _ hsp

lemma specBestAlert_isSome_of_mem (p : AlertConfig → Bool)
    (l : List AlertConfig) (a : AlertConfig) (ha : a ∈ l)
    (hpa : p a = true) : specBestAlert p l ≠ none := by
  induction l with
  | nil => cases ha
  | cons x t ih =>
      cases hst : specBestAlert p t with
      | none =>
          simp only [specBestAlert, hst]
          rcases List.mem_cons.mp ha with rfl | hat
          · rw [if_pos hpa]; exact Option.some_ne_none _
          · exact absurd hst (ih hat)
      | some c =>
          simp only [specBestAlert, hst]
          by_cases hpx : p x = true
          · rw [if_pos hpx]
            by_cases hlt : x.priority < c.priority
            · rw [if_pos hlt]; exact Option.some_ne_none _
            · rw [if_neg hlt]; exact Option.some_ne_none _
          · rw [if_neg hpx]; exact Option.some_ne_none _

lemma specBestAlert_max (p : AlertConfig → Bool) (l : List AlertConfig)
    (b : AlertConfig) (h : specBestAlert p l = some b) :
    ∀ a ∈ l, p a = true → a.priority ≤ b.priority := by
  induction l generalizing b with
  | nil => intro a ha; cases ha
  | cons x t ih =>
      intro a ha hpa'
      cases hsp : specBestAlert p t with
      | none =>
          simp only [specBestAlert, hsp] at h
          rcases List.mem_cons.mp ha with rfl | hat
          · rw [if_pos hpa'] at h; cases h; exact le_refl _
          · exact absurd hsp (specBestAlert_isSome_of_mem p t a hat hpa')
      | some c =>
          simp only [specBestAlert, hsp] at h
          rcases List.mem_cons.mp ha with rfl | hat
          · rw [if_pos hpa'] at h
            by_cases hlt : a.priority < c.priority
            · rw [if_pos hlt] at h; cases h; omega
            · rw [if_neg hlt] at h; cases h; exact le_refl _
          · have hac : a.priority ≤ c.priority := ih _ hsp a hat hpa'
            by_cases hpx : p x = true
            · rw [if_pos hpx] at h
              by_cases hlt : x.priority < c.priority
              · rw [if_pos hlt] at h; cases h; exact hac
              · rw [if_neg hlt] at h; cases h; omega
            · rw [if_neg hpx] at h; cases h; exact hac

lemma specBestAlert_none (p : AlertConfig → Bool) (l : List AlertConfig)
    (h : ∀ a ∈ l, p a = false) : specBestAlert p l = none := by
  induction l with
  | nil => rfl
  | cons a t ih =>
      have ht : specBestAlert p t = none :=
        ih fun x hx => h x (List.mem_cons_of_mem a hx)
      simp [specBestAlert, ht, h a (List.mem_cons_self a t)]

/-- C3: `active_alert()` returns exactly the highest-priority matching
rule, with priority ties resolved in favor of the earlier-declared rule
(`specBestAlert` is that specification), and `none` when no rule matches;
a returned rule matches and has maximal priority among matching rules; in
particular with `R1.priority = 5` and `R2.priority = 10` both matching,
`R2` is returned regardless of declaration order. -/
theorem active_alert_highest_priority (alerts : List AlertConfig)
    (sensor : SensorReading) (mqtt_vals : List (String × Value))
    (R1 R2 : AlertConfig) (h1 : R1.priority = 5) (h2 : R2.priority = 10)
    (hm1 : ruleMatches sensor mqtt_vals R1 = true)
    (hm2 : ruleMatches sensor mqtt_vals R2 = true) :
    active_alert alerts sensor mqtt_vals =
      specBestAlert (ruleMatches sensor mqtt_vals) alerts ∧
    (∀ b, active_alert alerts sensor mqtt_vals = some b →
      ruleMatches sensor mqtt_vals b = true ∧
      ∀ a ∈ alerts, ruleMatches sensor mqtt_vals a = true →
        a.priority ≤ b.priority) ∧
    ((∀ a ∈ alerts, ruleMatches sensor mqtt_vals a = false) →
      active_alert alerts sensor mqtt_vals = none) ∧
    active_alert [R1, R2] sensor mqtt_vals = some R2 ∧
    active_alert [R2, R1] sensor mqtt_vals = some R2 := by
  have key : ∀ l, active_alert l sensor mqtt_vals =
      specBestAlert (ruleMatches sensor mqtt_vals) l :=
    fun l => find?_sortAlerts _ l
  refine ⟨key alerts, ?_, ?_, ?_, ?_⟩
  · intro b hb
    rw [key] at hb
    exact ⟨specBestAlert_matches _ _ _ hb, specBestAlert_max _ _ _ hb⟩
  · intro hnone
    rw [key]
    exact specBestAlert_none _ _ hnone
  · rw [key]
    simp [specBestAlert, hm1, hm2, h1, h2]
  · rw [key]
    simp [specBestAlert, hm1, hm2, h1, h2]

/-- A concrete sensor snapshot used by the concrete alert examples. -/
def sensor0 : SensorReading := ⟨some 1500, some 22, some 40, 0⟩

/-- A concrete MQTT snapshot used by the concrete alert examples. -/
def mqtt0 : List (String × Value) := [("desk_light", .str "ON")]

/-- A concrete low-priority rule that matches `sensor0`. -/
def R1c : AlertConfig :=
  ⟨"sensor.co2", ">=", .num 1000, (1, 0, 0), "blink", 2, 1, 5⟩

/-- A concrete high-priority rule that matches `mqtt0`. -/
def R2c : AlertConfig :=
  ⟨"mqtt.desk_light", "==", .str "ON", (0, 0, 1), "solid", 2, 1, 10⟩

/-- Witness for C3 at the two concrete rules of the spec's example. -/
theorem active_alert_highest_priority_witness :
    R1c.priority = 5 ∧ R2c.priority = 10 ∧
    ruleMatches sensor0 mqtt0 R1c = true ∧
    ruleMatches sensor0 mqtt0 R2c = true ∧
    active_alert [R1c, R2c] sensor0 mqtt0 = some R2c ∧
    active_alert [R2c, R1c] sensor0 mqtt0 = some R2c := by
  have hm1 : ruleMatches sensor0 mqtt0 R1c = true := by decide
  have hm2 : ruleMatches sensor0 mqtt0 R2c = true := by decide
  have h := active_alert_highest_priority [R1c, R2c] sensor0 mqtt0 R1c R2c
    rfl rfl hm1 hm2
  exact ⟨rfl, rfl, hm1, hm2, h.2.2.2.1, h.2.2.2.2⟩

/-- C4: a rule whose source value is missing resolves to `None` and is
non-matching; an unknown comparator string makes `_eval` return `False`;
a comparison that raises `TypeError` (modelled as `pyCompare … = none`) is
caught and makes `_eval` return `False`; concretely, numeric `42` against
the string threshold `"ON"` under `==` is non-matching without raising,
string `"ON" == "ON"` matches and `"OFF" == "ON"` does not. -/
theorem rule_errors_non_matching (a : AlertConfig) (sensor : SensorReading)
    (mqtt_vals : List (String × Value)) (v t : Value) (c : Cmp)
    (op op2 : String)
    (hr : resolveSource a.source sensor mqtt_vals = none)
    (hop : OPS_get op = none)
    (hc : OPS_get op2 = some c) (hty : pyCompare c v t = none) :
    ruleMatches sensor mqtt_vals a = false ∧
    evalCond v op t = false ∧
    evalCond v op2 t = false ∧
    evalCond (.num 42) "==" (.str "ON") = false ∧
    evalCond (.str "ON") "==" (.str "ON") = true ∧
    evalCond (.str "OFF") "==" (.str "ON") = false := by
  refine ⟨?_, ?_, ?_, by decide, by decide, by decide⟩
  · unfold ruleMatches
    rw [hr]
  · unfold evalCond
    rw [hop]
  · unfold evalCond
    rw [hc]
    show (pyCompare c v t).getD false = false
    rw [hty]
    rfl

/-- Witness for C4: a rule with an unresolvable source, the unknown
comparator `"<>"`, and the `TypeError` case `42 > "ON"`. -/
theorem rule_errors_non_matching_witness :
    resolveSource "nothing" sensor0 mqtt0 = none ∧
    OPS_get "<>" = none ∧
    OPS_get ">" = some Cmp.gt ∧
    pyCompare Cmp.gt (.num 42) (.str "ON") = none ∧
    ruleMatches sensor0 mqtt0
      ⟨"nothing", ">", .str "ON", (1, 0, 0), "solid", 2, 1, 0⟩ = false := by
  refine ⟨by decide, by decide, by decide, by decide, ?_⟩
  exact (rule_errors_non_matching
    ⟨"nothing", ">", .str "ON", (1, 0, 0), "solid", 2, 1, 0⟩
    sensor0 mqtt0 (.num 42) (.str "ON") Cmp.gt "<>" ">"
    (by decide) (by decide) (by decide) (by decide)).1

/-! ## Button debouncer (`hardware/buttons.py`) -/

/-- Per-button debounce state in `ButtonHandler._run`: the last raw
reading (`prev_state[name]`), the accepted stable reading
(`stable_state[name]`) and the consecutive-identical-reads counter
(`counts[name]`). -/
structure BtnState where
  prevRaw : Bool
  stable : Bool
  count : Nat
deriving DecidableEq

/-- `_DEBOUNCE_COUNT = 2`: require 2 consecutive identical reads. -/
def DEBOUNCE_COUNT : Nat := 2

/-- One 50 ms poll tick of `ButtonHandler._run` for one button: equal raw
reading increments the counter, a different one resets it to 1 and updates
the raw state; exactly when the counter hits the debounce threshold the
reading becomes stable, and `_on_press` fires only if the reading is
`true` and the old stable reading was `false`.  Returns the new state and
whether a press action was dispatched. -/
def buttonStep (st : BtnState) (pressed : Bool) : BtnState × Bool :=
  let count := if pressed = st.prevRaw then st.count + 1 else 1
  let raw := if pressed = st.prevRaw then st.prevRaw else pressed
  if count = DEBOUNCE_COUNT then
    (⟨raw, pressed, count⟩, pressed && !st.stable)
  else
    (⟨raw, st.stable, count⟩, false)

/-- Run the poll loop over a finite sequence of raw readings, counting
dispatched press actions. -/
def buttonRun (st : BtnState) : List Bool → BtnState × Nat
  | [] => (st, 0)
  | r :: rs =>
      let s1 := buttonStep st r
      let s2 := buttonRun s1.1 rs
      (s2.1, (if s1.2 then 1 else 0) + s2.2)

/-- The initial per-button state in `_run`: all maps start at `False`/0. -/
def btnInit : BtnState := ⟨false, false, 0⟩

lemma buttonRun_append (st : BtnState) (l1 l2 : List Bool) :
    buttonRun st (l1 ++ l2) =
      ((buttonRun (buttonRun st l1).1 l2).1,
        (buttonRun st l1).2 + (buttonRun (buttonRun st l1).1 l2).2) := by
  induction l1 generalizing st with
  | nil => simp [buttonRun]
  | cons r rs ih =>
      simp only [List.cons_append, buttonRun, List.append_eq]
      rw [ih]
      simp only [Prod.mk.injEq]
      exact ⟨trivial, by omega⟩

lemma buttonStep_false_false (c : Nat) :
    buttonStep ⟨false, false, c⟩ false = (⟨false, false, c + 1⟩, false) := by
  unfold buttonStep
  simp only [show ((false = false) = True) from by simp, if_true]
  split <;> rfl

lemma buttonStep_true_true (c : Nat) :
    buttonStep ⟨true, true, c⟩ true = (⟨true, true, c + 1⟩, false) := by
  unfold buttonStep
  simp only [show ((true = true) = True) from by simp, if_true]
  split <;> rfl

lemma buttonRun_false_false (n c : Nat) :
    buttonRun ⟨false, false, c⟩ (List.replicate n false) =
      (⟨false, false, c + n⟩, 0) := by
  induction n generalizing c with
  | zero => rfl
  | succ k ih =>
      rw [List.replicate_succ]
      simp only [buttonRun, buttonStep_false_false, ih, Prod.mk.injEq,
        BtnState.mk.injEq]
      exact ⟨⟨trivial, trivial, by omega⟩, by simp⟩

lemma buttonRun_true_true (n c : Nat) :
    buttonRun ⟨true, true, c⟩ (List.replicate n true) =
      (⟨true, true, c + n⟩, 0) := by
  induction n generalizing c with
  | zero => rfl
  | succ k ih =>
      rw [List.replicate_succ]
      simp only [buttonRun, buttonStep_true_true, ih, Prod.mk.injEq,
        BtnState.mk.injEq]
      exact ⟨⟨trivial, trivial, by omega⟩, by simp⟩

lemma buttonRun_singleTrue_tail (m : Nat) :
    (buttonRun ⟨true, false, 1⟩ (List.replicate m false)).2 = 0 := by
  cases m with
  | zero => rfl
  | succ k =>
      rw [List.replicate_succ]
      have h1 : buttonStep ⟨true, false, 1⟩ false = (⟨false, false, 1⟩, false) := rfl
      simp [buttonRun, h1, buttonRun_false_false]

lemma buttonStep_fired (st : BtnState) (r : Bool)
    (h : (buttonStep st r).2 = true) : r = true ∧ st.stable = false := by
  simp only [buttonStep] at h
  by_cases hr : r = st.prevRaw
  · simp only [if_pos hr] at h
    split at h
    · simp only [Bool.and_eq_true, Bool.not_eq_true'] at h
      exact h
    · simp at h
  · simp only [if_neg hr] at h
    split at h
    · simp only [Bool.and_eq_true, Bool.not_eq_true'] at h
      exact h
    · simp at h

lemma buttonStep_release_silent (st : BtnState) :
    (buttonStep st false).2 = false := by
  simp only [buttonStep]
  by_cases hr : false = st.prevRaw
  · simp only [if_pos hr]
    split <;> rfl
  · simp only [if_neg hr]
    split <;> rfl

/-- C5: from the initial debounce state, a reading that is `true` for
exactly one 50 ms poll tick dispatches no press action; a reading stably
`true` for at least two consecutive ticks dispatches exactly one press
action for the whole run, not one per tick; a press fires only on a
`false → true` transition of the stable reading; a `false` reading never
dispatches; and when the debounce threshold is reached the stable reading
is updated to the raw reading (releases are tracked silently). -/
theorem debounce_one_press (n m k : Nat) (st : BtnState) (r : Bool)
    (hf : (buttonStep st r).2 = true)
    (hth : (if r = st.prevRaw then st.count + 1 else 1) = DEBOUNCE_COUNT) :
    (buttonRun btnInit
      (List.replicate n false ++ [true] ++ List.replicate m false)).2 = 0 ∧
    (buttonRun btnInit
      (List.replicate n false ++ List.replicate (k + 2) true)).2 = 1 ∧
    (r = true ∧ st.stable = false) ∧
    (buttonStep st false).2 = false ∧
    ((buttonStep st r).1).stable = r := by
  refine ⟨?_, ?_, buttonStep_fired st r hf, buttonStep_release_silent st, ?_⟩
  · rw [buttonRun_append, buttonRun_append]
    rw [show buttonRun btnInit (List.replicate n false) =
      (⟨false, false, 0 + n⟩, 0) from buttonRun_false_false n 0]
    have hsingle : buttonRun (⟨false, false, 0 + n⟩ : BtnState) [true] =
        (⟨true, false, 1⟩, 0) := rfl
    rw [hsingle]
    simp [buttonRun_singleTrue_tail m]
  · rw [buttonRun_append]
    rw [show buttonRun btnInit (List.replicate n false) =
      (⟨false, false, 0 + n⟩, 0) from buttonRun_false_false n 0]
    rw [show k + 2 = (k + 1) + 1 from rfl, List.replicate_succ,
        List.replicate_succ]
    have h1 : buttonStep ⟨false, false, 0 + n⟩ true = (⟨true, false, 1⟩, false) := rfl
    have h2 : buttonStep ⟨true, false, 1⟩ true = (⟨true, true, 2⟩, true) := rfl
    simp only [buttonRun, h1, h2, buttonRun_true_true]
    norm_num
  · unfold buttonStep
    rw [if_pos hth]

/-- Witness for C5 at concrete tick counts and a concrete firing state. -/
theorem debounce_one_press_witness :
    (buttonStep ⟨true, false, 1⟩ true).2 = true ∧
    (if true = (⟨true, false, 1⟩ : BtnState).prevRaw then
      (⟨true, false, 1⟩ : BtnState).count + 1 else 1) = DEBOUNCE_COUNT ∧
    (buttonRun btnInit
      (List.replicate 3 false ++ [true] ++ List.replicate 4 false)).2 = 0 ∧
    (buttonRun btnInit
      (List.replicate 3 false ++ List.replicate 7 true)).2 = 1 := by
  refine ⟨by decide, by decide, ?_, ?_⟩
  · exact (debounce_one_press 3 4 5 ⟨true, false, 1⟩ true
      (by decide) (by decide)).1
  · exact (debounce_one_press 3 4 5 ⟨true, false, 1⟩ true
      (by decide) (by decide)).2.1

/-! ## Render scheduler (`hardware/display.py`) -/

/-- `self._frame_time = 1.0 / max(1, fps)` from `DisplayController.__init__`. -/
def frameTime (fps : Int) : ℚ := 1 / ((max 1 fps : Int) : ℚ)

/-- One iteration of `DisplayController._run`: read the bus version; if it
differs from the last rendered version, render the active screen and push
it (`renderOk` models whether `render`/`display` raised — on an exception
`last_version` is not updated), then sleep `max(0.0, frame_time −
elapsed)`; if unchanged, sleep the full frame period.  Returns
(rendered?, new `last_version`, sleep time). -/
def renderIter (last_version version : Int) (renderOk : Bool)
    (elapsed frame_time : ℚ) : Bool × Int × ℚ :=
  if version ≠ last_version then
    (true, if renderOk then version else last_version,
      pyMax 0 (frame_time - elapsed))
  else
    (false, last_version, frame_time)

/-- C6: the render loop skips rendering and sleeps the full frame period
when the bus version equals the last rendered version; on a differing
version it renders, records the version on success, and sleeps
`max(0, frame_period − elapsed)`; immediately after a successful render
the same version is never re-rendered; and the first iteration (with
`last_version = -1` against a bus version that is a natural number)
always renders. -/
theorem render_only_on_change (last v : Int) (ok ok2 : Bool)
    (e f e2 f2 : ℚ) (h : v ≠ last) :
    renderIter last last ok e f = (false, last, f) ∧
    (renderIter last v ok e f).1 = true ∧
    (renderIter last v ok e f).2.2 = pyMax 0 (f - e) ∧
    (renderIter last v true e f).2.1 = v ∧
    (renderIter (renderIter last v true e f).2.1 v ok2 e2 f2).1 = false ∧
    ∀ (n : Nat), (renderIter (-1) (n : Int) ok e f).1 = true := by
  refine ⟨?_, ?_, ?_, ?_, ?_, ?_⟩
  · simp [renderIter]
  · simp [renderIter, h]
  · simp [renderIter, h]
  · simp [renderIter, h]
  · have h4 : (renderIter last v true e f).2.1 = v := by simp [renderIter, h]
    rw [h4]
    simp [renderIter]
  · intro n
    have : ((n : Int)) ≠ -1 := by omega
    simp [renderIter, this]

/-- Witness for C6 at concrete versions and timings. -/
theorem render_only_on_change_witness :
    ((1 : Int) ≠ 0) ∧
    renderIter 0 0 true (1/100) (1/10) = (false, 0, 1/10) ∧
    (renderIter 0 1 true (1/100) (1/10)).1 = true := by
  have h := render_only_on_change 0 1 true false (1/100) (1/10) (2/100)
    (1/10) (by decide)
  exact ⟨by decide, h.1, h.2.1⟩

/-! ## LED animator (`hardware/led.py`) -/

/-- `_TICK = 0.05`: the 20 Hz fast tick for blink/pulse animation. -/
def TICK : ℚ := 5/100

/-- `_TICK_SOLID = 0.5`: the 2 Hz slow tick for steady colors. -/
def TICK_SOLID : ℚ := 1/2

/-- A `set_led(r, g, b)` call on the display sink. -/
structure LedCmd where
  r : ℚ
  g : ℚ
  b : ℚ
deriving DecidableEq

/-- The configuration consulted each tick: color and mode, plus the
animation rates.  `LedIdleConfig` has no `blink_hz`/`pulse_hz` fields, so
the code reads them with `getattr(cfg, "blink_hz", 2.0)` — modelled with
`Option` fields read with their defaults. -/
structure LedCfg where
  color : ℚ × ℚ × ℚ
  mode : String
  blink_hz : Option ℚ
  pulse_hz : Option ℚ
deriving DecidableEq

/-- `cfg = alert if alert is not None else self._idle`. -/
def cfgOf (alert : Option AlertConfig) (idle : LedCfg) : LedCfg :=
  match alert with
  | some a => ⟨a.color, a.mode, some a.blink_hz, some a.pulse_hz⟩
  | none => idle

/-- Mutable loop state of `LEDController._run`: the phase accumulator `t`
and `_last_solid_rgb`. -/
structure LedSt where
  t : ℚ
  lastSolid : Option (ℚ × ℚ × ℚ)
deriving DecidableEq

/-- Python `x % 1.0` (floor modulus) used for the blink duty cycle. -/
def fract (q : ℚ) : ℚ := q - ⌊q⌋

/-- One loop-body iteration of `LEDController._run` (everything between
the shutdown check and the timed wait): emits this tick's `set_led` calls
and advances `t` by the tick of the branch taken.  `sin2pi` is an
abstract parameter standing for the transcendental `x ↦ math.sin(2π·x)`
of pulse mode; every theorem below holds for all interpretations. -/
def ledBody (sin2pi : ℚ → ℚ) (cfg : LedCfg) (st : LedSt) :
    List LedCmd × LedSt :=
  let r := cfg.color.1
  let g := cfg.color.2.1
  let b := cfg.color.2.2
  if cfg.mode = "blink" then
    let hz := cfg.blink_hz.getD 2
    let onv : ℚ := if fract (st.t * hz) < 1/2 then 1 else 0
    ([⟨r * onv, g * onv, b * onv⟩], ⟨st.t + TICK, none⟩)
  else if cfg.mode = "pulse" then
    let hz := cfg.pulse_hz.getD 1
    let brightness := (sin2pi (hz * st.t) + 1) / 2
    ([⟨r * brightness, g * brightness, b * brightness⟩], ⟨st.t + TICK, none⟩)
  else
    if some (r, g, b) ≠ st.lastSolid then
      ([⟨r, g, b⟩], ⟨st.t + TICK_SOLID, some (r, g, b)⟩)
    else
      ([], ⟨st.t + TICK_SOLID, st.lastSolid⟩)

/-- `LEDController._run` as a whole: `σ i` is the value of
`shutdown.is_set()` at the i-th loop check, `alertAt i` the evaluator's
answer during iteration i.  Returns `none` when the fuel runs out before
shutdown is observed, otherwise the full list of `set_led` calls of the
run, which ends with the mandatory `set_led(0.0, 0.0, 0.0)` issued after
the loop. -/
def ledRun (sin2pi : ℚ → ℚ) (alertAt : Nat → Option AlertConfig)
    (idle : LedCfg) (σ : Nat → Bool) (i : Nat) (st : LedSt) :
    Nat → Option (List LedCmd)
  | 0 => none
  | fuel + 1 =>
      if σ i then some [⟨0, 0, 0⟩]
      else
        let step := ledBody sin2pi (cfgOf (alertAt i) idle) st
        (ledRun sin2pi alertAt idle σ (i + 1) step.2 fuel).map (step.1 ++ ·)

/-- The `set_led` calls issued by the loop iterations alone, without the
shutdown cleanup, for comparison with `ledRun`. -/
def ledLoopCmds (sin2pi : ℚ → ℚ) (alertAt : Nat → Option AlertConfig)
    (idle : LedCfg) (σ : Nat → Bool) (i : Nat) (st : LedSt) :
    Nat → List LedCmd
  | 0 => []
  | fuel + 1 =>
      if σ i then []
      else
        let step := ledBody sin2pi (cfgOf (alertAt i) idle) st
        step.1 ++ ledLoopCmds sin2pi alertAt idle σ (i + 1) step.2 fuel

lemma ledRun_succ (sin2pi : ℚ → ℚ) (alertAt : Nat → Option AlertConfig)
    (idle : LedCfg) (σ : Nat → Bool) (i : Nat) (st : LedSt) (fuel : Nat) :
    ledRun sin2pi alertAt idle σ i st (fuel + 1) =
      if σ i then some [⟨0, 0, 0⟩]
      else
        (ledRun sin2pi alertAt idle σ (i + 1)
          (ledBody sin2pi (cfgOf (alertAt i) idle) st).2 fuel).map
          ((ledBody sin2pi (cfgOf (alertAt i) idle) st).1 ++ ·) := rfl

lemma ledLoopCmds_succ (sin2pi : ℚ → ℚ)
    (alertAt : Nat → Option AlertConfig) (idle : LedCfg) (σ : Nat → Bool)
    (i : Nat) (st : LedSt) (fuel : Nat) :
    ledLoopCmds sin2pi alertAt idle σ i st (fuel + 1) =
      if σ i then []
      else
        (ledBody sin2pi (cfgOf (alertAt i) idle) st).1 ++
          ledLoopCmds sin2pi alertAt idle σ (i + 1)
            (ledBody sin2pi (cfgOf (alertAt i) idle) st).2 fuel := rfl

lemma ledRun_shutdown (sin2pi : ℚ → ℚ) (alertAt : Nat → Option AlertConfig)
    (idle : LedCfg) (σ : Nat → Bool) :
    ∀ (fuel i : Nat) (st : LedSt), σ (i + fuel) = true →
      ledRun sin2pi alertAt idle σ i st (fuel + 1) =
        some (ledLoopCmds sin2pi alertAt idle σ i st (fuel + 1) ++
          [⟨0, 0, 0⟩]) := by
  intro fuel
  induction fuel with
  | zero =>
      intro i st h
      rw [Nat.add_zero] at h
      rw [ledRun_succ, ledLoopCmds_succ, if_pos h, if_pos h]
      rfl
  | succ f ih =>
      intro i st h
      rw [ledRun_succ, ledLoopCmds_succ]
      by_cases hi : σ i = true
      · rw [if_pos hi, if_pos hi]
        rfl
      · have h' : σ ((i + 1) + f) = true := by
          rw [show (i + 1) + f = i + (f + 1) from by omega]
          exact h
        rw [if_neg hi, if_neg hi]
        rw [ih (i + 1) _ h']
        simp

/-- C9: once the shutdown flag is set (`σ n = true`, and it stays set),
the LED loop finishes within that very iteration — fuel `n + 1` suffices —
and the run's command list is exactly the loop's own `set_led` calls
followed by exactly one `set_led(0.0, 0.0, 0.0)` issued after the loop,
whatever mode was active at shutdown. -/
theorem led_off_exactly_once (sin2pi : ℚ → ℚ)
    (alertAt : Nat → Option AlertConfig) (idle : LedCfg) (σ : Nat → Bool)
    (n : Nat) (hmono : ∀ i j, i ≤ j → σ i = true → σ j = true)
    (hn : σ n = true) :
    ledRun sin2pi alertAt idle σ 0 ⟨0, none⟩ (n + 1) =
      some (ledLoopCmds sin2pi alertAt idle σ 0 ⟨0, none⟩ (n + 1) ++
        [⟨0, 0, 0⟩]) := by
  exact ledRun_shutdown sin2pi alertAt idle σ n 0 ⟨0, none⟩
    (by simpa using hn)

/-- A shutdown schedule set from the second check onward. -/
def shutdownAfter1 : Nat → Bool := fun i => decide (1 ≤ i)

/-- The evaluator finding no active alert at any tick. -/
def noAlert : Nat → Option AlertConfig := fun _ => none

/-- A concrete idle configuration (black, solid, no rate attributes). -/
def idleCfg0 : LedCfg := ⟨(0, 0, 0), "solid", none, none⟩

/-- The zero interpretation of the sine oscillator. -/
def zeroSin : ℚ → ℚ := fun _ => 0

/-- Witness for C9 at a concrete shutdown schedule. -/
theorem led_off_exactly_once_witness :
    (∀ i j, i ≤ j → shutdownAfter1 i = true → shutdownAfter1 j = true) ∧
    shutdownAfter1 1 = true ∧
    ledRun zeroSin noAlert idleCfg0 shutdownAfter1 0 ⟨0, none⟩ 2 =
      some (ledLoopCmds zeroSin noAlert idleCfg0 shutdownAfter1 0
        ⟨0, none⟩ 2 ++ [⟨0, 0, 0⟩]) := by
  have hmono : ∀ i j, i ≤ j → shutdownAfter1 i = true →
      shutdownAfter1 j = true := by
    intro i j hij hi
    simp only [shutdownAfter1, decide_eq_true_eq] at hi ⊢
    omega
  exact ⟨hmono, by decide,
    led_off_exactly_once zeroSin noAlert idleCfg0 shutdownAfter1 1
      hmono (by decide)⟩

/-- The loop state after `k` iterations of `LEDController._run`, for an
arbitrary per-iteration configuration schedule. -/
def ledStates (sin2pi : ℚ → ℚ) (cfgAt : Nat → LedCfg) : Nat → LedSt
  | 0 => ⟨0, none⟩
  | k + 1 => (ledBody sin2pi (cfgAt k) (ledStates sin2pi cfgAt k)).2

lemma ledBody_t (sin2pi : ℚ → ℚ) (cfg : LedCfg) (st : LedSt) :
    (ledBody sin2pi cfg st).2.t =
      st.t + (if cfg.mode = "blink" ∨ cfg.mode = "pulse" then TICK
              else TICK_SOLID) := by
  unfold ledBody
  by_cases hb : cfg.mode = "blink"
  · simp [hb]
  · by_cases hp : cfg.mode = "pulse"
    · simp [hb, hp]
    · simp only [if_neg hb, if_neg hp]
      rw [if_neg (not_or.mpr ⟨hb, hp⟩)]
      split <;> rfl

lemma ledStates_t_le (sin2pi : ℚ → ℚ) (cfgAt : Nat → LedCfg) (k : Nat) :
    (ledStates sin2pi cfgAt k).t ≤ (ledStates sin2pi cfgAt (k + 1)).t := by
  show (ledStates sin2pi cfgAt k).t ≤
    (ledBody sin2pi (cfgAt k) (ledStates sin2pi cfgAt k)).2.t
  rw [ledBody_t]
  have : (0:ℚ) ≤ (if (cfgAt k).mode = "blink" ∨ (cfgAt k).mode = "pulse"
      then TICK else TICK_SOLID) := by
    split <;> norm_num [TICK, TICK_SOLID]
  linarith

/-- C10: within one run of the LED loop the phase accumulator `t` starts
at 0 and is never reset: each iteration adds exactly the tick of the
branch taken — 0.05 s in blink or pulse mode, 0.5 s otherwise (in
particular in solid mode) — for every configuration schedule, including
arbitrary alert changes and mode switches; hence `t` is monotonically
non-decreasing over the lifetime of the loop. -/
theorem led_phase_never_reset (sin2pi : ℚ → ℚ) (cfgAt : Nat → LedCfg)
    (k j : Nat) (hkj : k ≤ j) :
    (ledStates sin2pi cfgAt 0).t = 0 ∧
    (ledStates sin2pi cfgAt (k + 1)).t =
      (ledStates sin2pi cfgAt k).t +
        (if (cfgAt k).mode = "blink" ∨ (cfgAt k).mode = "pulse" then 5/100
         else 1/2) ∧
    ((cfgAt k).mode = "solid" →
      (ledStates sin2pi cfgAt (k + 1)).t =
        (ledStates sin2pi cfgAt k).t + 1/2) ∧
    (ledStates sin2pi cfgAt k).t ≤ (ledStates sin2pi cfgAt j).t := by
  have hstep : ∀ m, (ledStates sin2pi cfgAt (m + 1)).t =
      (ledStates sin2pi cfgAt m).t +
        (if (cfgAt m).mode = "blink" ∨ (cfgAt m).mode = "pulse" then TICK
         else TICK_SOLID) := fun m => ledBody_t sin2pi (cfgAt m) _
  refine ⟨rfl, hstep k, ?_, ?_⟩
  · intro hs
    rw [hstep k, hs, if_neg (by decide)]
    rfl
  · induction j with
    | zero =>
        have : k = 0 := Nat.le_zero.mp hkj
        subst this
        exact le_refl _
    | succ m ih =>
        rcases Nat.lt_or_ge k (m + 1) with hlt | hge
        · have hk : k ≤ m := Nat.lt_succ_iff.mp hlt
          exact le_trans (ih hk) (ledStates_t_le sin2pi cfgAt m)
        · have : k = m + 1 := le_antisymm hkj hge
          subst this
          exact le_refl _

/-- Witness for C10 at a concrete schedule and indices. -/
theorem led_phase_never_reset_witness :
    (0 : Nat) ≤ 2 ∧
    (ledStates zeroSin (fun _ => idleCfg0) 0).t ≤
      (ledStates zeroSin (fun _ => idleCfg0) 2).t := by
  exact ⟨by decide,
    (led_phase_never_reset zeroSin (fun _ => idleCfg0) 0 2
      (by decide)).2.2.2⟩

/-! ## Reference semantics of the bus getters (`state.py`)

`get_sensor` returns `self._sensor` itself and `get_all_mqtt` returns
`dict(self._mqtt)`; to reason about copies versus references the two
reference-valued attributes are modelled against an explicit heap of
Python objects. -/

/-- Heap of the Python objects the bus touches: mutable `SensorReading`
dataclass instances and dict objects, addressed by ids. -/
structure Heap where
  readings : Nat → Option SensorReading
  dicts : Nat → Option (List (String × Value))
  nextId : Nat

/-- The bus's two reference-valued attributes: `self._sensor` and
`self._mqtt` hold references into the heap. -/
structure BusRefs where
  sensorRef : Nat
  mqttRef : Nat
deriving DecidableEq

/-- `SharedState.__init__`: allocates `SensorReading()` and `{}`. -/
def initRefs : Heap × BusRefs :=
  ({ readings := fun n => if n = 0 then some SensorReading.default else none
     dicts := fun n => if n = 1 then some [] else none
     nextId := 2 },
   ⟨0, 1⟩)

/-- `update_sensor` in reference semantics: construct a fresh
`SensorReading(...)` whose four fields all come from this one update and
rebind `self._sensor` to it; no existing object is mutated. -/
def update_sensorRef (h : Heap) (bus : BusRefs)
    (co2 temperature humidity now : ℚ) : Heap × BusRefs :=
  ({ h with
      readings := fun n =>
        if n = h.nextId then
          some ⟨some co2, some temperature, some humidity, now⟩
        else h.readings n
      nextId := h.nextId + 1 },
   { bus with sensorRef := h.nextId })

/-- `get_sensor`: returns `self._sensor` — the internal reference itself,
not a copy. -/
def get_sensorRef (bus : BusRefs) : Nat := bus.sensorRef

/-- Dereference a reading object. -/
def derefReading (h : Heap) (r : Nat) : Option SensorReading := h.readings r

/-- A caller mutating a returned dataclass in place
(`reading.co2 = v`) — `SensorReading` is a plain mutable dataclass. -/
def callerSetCo2 (h : Heap) (r : Nat) (v : ℚ) : Heap :=
  { h with
      readings := fun n =>
        if n = r then (h.readings r).map (fun s => { s with co2 := some v })
        else h.readings n }

/-- `get_all_mqtt`: `dict(self._mqtt)` — allocate a fresh dict object
with copied entries and return a reference to the copy. -/
def get_all_mqttRef (h : Heap) (bus : BusRefs) : Heap × Nat :=
  ({ h with
      dicts := fun n =>
        if n = h.nextId then h.dicts bus.mqttRef else h.dicts n
      nextId := h.nextId + 1 },
   h.nextId)

/-- A caller mutating the dict returned by `get_all_mqtt`
(`d[k] = v`). -/
def callerDictSet (h : Heap) (r : Nat) (k : String) (v : Value) : Heap :=
  { h with
      dicts := fun n =>
        if n = r then (h.dicts n).map (fun d => dictInsert d k v)
        else h.dicts n }

/-- Counterexample to C8 as stated: `get_sensor()` does NOT return an
independent value copy — it returns the bus's internal reference, so a
caller assigning `reading.co2 = 9999` on the returned object changes what
a later `get_sensor()` reader dereferences.  Concretely, after
`update_sensor(400, 20, 50)` and the caller's mutation, the bus's current
reading is the mutated one, not the stored one. -/
theorem get_sensor_returns_internal_reference :
    (derefReading
        (callerSetCo2
          (update_sensorRef initRefs.1 initRefs.2 400 20 50 0).1
          (get_sensorRef (update_sensorRef initRefs.1 initRefs.2
            400 20 50 0).2) 9999)
        (get_sensorRef (update_sensorRef initRefs.1 initRefs.2
          400 20 50 0).2) =
      some ⟨some 9999, some 20, some 50, 0⟩) ∧
    (derefReading
        (callerSetCo2
          (update_sensorRef initRefs.1 initRefs.2 400 20 50 0).1
          (get_sensorRef (update_sensorRef initRefs.1 initRefs.2
            400 20 50 0).2) 9999)
        (get_sensorRef (update_sensorRef initRefs.1 initRefs.2
          400 20 50 0).2) ≠
      some ⟨some 400, some 20, some 50, 0⟩) := by
  constructor
  · rfl
  · decide

/-- C8 amended: `get_sensor` returns the internal reference rather than a
copy, but the bus never mutates a reading object in place —
`update_sensor` installs a freshly allocated reading whose four fields
`{co2, temperature, humidity, timestamp}` all stem from that single
update, so readers never see a mix of old and new fields; and
`get_all_mqtt` does return a fresh dict, so mutating the returned dict
does not affect the bus's internal dict. -/
theorem bus_getters_amended (h : Heap) (bus : BusRefs)
    (c t hu now : ℚ) (k : String) (v : Value)
    (hfresh : bus.mqttRef ≠ h.nextId) :
    derefReading (update_sensorRef h bus c t hu now).1
        (get_sensorRef (update_sensorRef h bus c t hu now).2) =
      some ⟨some c, some t, some hu, now⟩ ∧
    (∀ r, r ≠ h.nextId →
      derefReading (update_sensorRef h bus c t hu now).1 r =
        derefReading h r) ∧
    (get_all_mqttRef h bus).2 ≠ bus.mqttRef ∧
    (callerDictSet (get_all_mqttRef h bus).1 (get_all_mqttRef h bus).2
        k v).dicts bus.mqttRef = h.dicts bus.mqttRef := by
  refine ⟨?_, ?_, ?_, ?_⟩
  · simp [derefReading, update_sensorRef, get_sensorRef]
  · intro r hr
    simp [derefReading, update_sensorRef, hr]
  · exact fun hc => hfresh hc.symm
  · simp [callerDictSet, get_all_mqttRef, hfresh, Ne.symm hfresh]

/-- Witness for the amended C8 at the freshly constructed bus. -/
theorem bus_getters_amended_witness :
    initRefs.2.mqttRef ≠ initRefs.1.nextId ∧
    derefReading
        (update_sensorRef initRefs.1 initRefs.2 400 20 50 0).1
        (get_sensorRef (update_sensorRef initRefs.1 initRefs.2
          400 20 50 0).2) =
      some ⟨some 400, some 20, some 50, 0⟩ := by
  refine ⟨by decide, ?_⟩
  exact (bus_getters_amended initRefs.1 initRefs.2 400 20 50 0 "x"
    (.str "y") (by decide)).1

end DeskInfoPoint
